import Mathlib

/-!
Shallow embedding of the go-caskdb key-value store (disk_store.go,
memory_store.go) together with the record codec described by the
specification.  Byte strings (Go `string` / `[]byte`) are modelled as
`List Nat`; 32-bit unsigned arithmetic is modelled on `Nat` with explicit
`% 2 ^ 32`.
-/

/-- Modelled from the spec: the fixed record header is three 32-bit unsigned
integers (timestamp, key length, value length), so 12 bytes.  The codec source
file (format.go) is not part of the provided sources. -/
def headerSize : Nat := 12

/-- Modelled from the spec: a 32-bit unsigned integer serialised as four
little-endian bytes, silently truncating larger values to 32 bits. -/
def u32le (n : Nat) : List Nat :=
  [n % 256, n / 256 % 256, n / 65536 % 256, n / 16777216 % 256]

/-- Modelled from the spec: read a little-endian 32-bit unsigned integer from
the first four bytes of a byte string (missing bytes read as 0). -/
def decodeU32 (b : List Nat) : Nat :=
  b.getD 0 0 + 256 * b.getD 1 0 + 65536 * b.getD 2 0 + 16777216 * b.getD 3 0

/-- Modelled from the spec: `encodeKV(timestamp, key, value)` returns the
total record size (header size + key length + value length) and the encoded
bytes: header (timestamp, key length, value length as 32-bit fields) followed
by the raw key bytes then the raw value bytes.  The codec source file
(format.go) is not part of the provided sources. -/
def encodeKV (timestamp : Nat) (key value : List Nat) : Nat × List Nat :=
  (headerSize + key.length + value.length,
    u32le timestamp ++ u32le key.length ++ u32le value.length ++ key ++ value)

/-- Modelled from the spec: `decodeKV(bytes)` reads the three header fields in
order, then slices the remainder into a key segment of the declared key length
and a value segment of the declared value length. -/
def decodeKV (data : List Nat) : Nat × List Nat × List Nat :=
  let t := decodeU32 data
  let klen := decodeU32 (data.drop 4)
  let vlen := decodeU32 (data.drop 8)
  let body := data.drop headerSize
  (t, body.take klen, (body.drop klen).take vlen)

/-- Modelled from the spec: `KeyEntry` holds the timestamp of the write, the
byte offset of the record start recorded for it, and the byte length of the
full encoded record (key_entry.go is not part of the provided sources). -/
structure KeyEntry where
  timestamp : Nat
  position : Nat
  totalSize : Nat
deriving DecidableEq, Repr

/-- Modelled from the spec: constructor for `KeyEntry`. -/
def NewKeyEntry (timestamp position totalSize : Nat) : KeyEntry :=
  ⟨timestamp, position, totalSize⟩

/-- Association-list lookup, modelling Go's `map[string]KeyEntry` read
`v, found := m[k]` (`none` when the key is absent). -/
def kdLookup : List (List Nat × KeyEntry) → List Nat → Option KeyEntry
  | [], _ => none
  | (k2, e) :: rest, k => if k2 = k then some e else kdLookup rest k

/-- Association-list upsert, modelling Go's `m[k] = e` (keys stay unique). -/
def kdUpdate : List (List Nat × KeyEntry) → List Nat → KeyEntry →
    List (List Nat × KeyEntry)
  | [], k, e => [(k, e)]
  | (k2, e2) :: rest, k, e =>
      if k2 = k then (k, e) :: rest else (k2, e2) :: kdUpdate rest k e

/-- State of a `DiskStore` (disk_store.go) together with the state of its
backing file: `fileData` are the bytes of the log file on disk, `filePos` is
the operating-system file cursor (moved by `Seek`/`Read`/`Write`), `keyDir`
and `offset` are the struct fields, and `closed` records that the file handle
is unusable (closed, or `os.Create` failed and the handle is nil). -/
structure DiskStore where
  fileData : List Nat
  filePos : Nat
  keyDir : List (List Nat × KeyEntry)
  offset : Nat
  closed : Bool
deriving DecidableEq, Repr

/-- `NewDiskStore` (disk_store.go): `os.Create` truncates any existing file
(`prior` is discarded, no replay), and the store struct is returned
unconditionally alongside the creation error (`true` = an error occurred; on
error the file handle is unusable). -/
def NewDiskStore (prior : List Nat) (createFails : Bool) : DiskStore × Bool :=
  let _ := prior
  ({ fileData := [], filePos := 0, keyDir := [], offset := 0,
     closed := createFails }, createFails)

/-- A positioned write into the file: overwrites existing bytes at `pos`,
zero-fills any gap beyond the end of the file, and extends the file as
needed (POSIX write semantics). -/
def writeAt (data : List Nat) (pos : Nat) (bytes : List Nat) : List Nat :=
  data.take pos ++ List.replicate (pos - data.length) 0 ++ bytes ++
    data.drop (pos + bytes.length)

/-- `DiskStore.Set` (disk_store.go): encodes the record with the current
uint32 timestamp, unconditionally stores `NewKeyEntry(ts, d.offset,
uint32(totalSize))` in the key directory, advances `d.offset` by
`uint32(totalSize) + 1` (uint32 wrap-around), and writes the encoded bytes at
the file cursor, discarding the write's error (on a closed/invalid handle the
write fails and the file is untouched). -/
def DiskStore.Set (d : DiskStore) (now : Nat) (key value : List Nat) :
    DiskStore :=
  let ts := now % 2 ^ 32
  let totalSize := (encodeKV ts key value).1
  let byteArr := (encodeKV ts key value).2
  { fileData := if d.closed then d.fileData else writeAt d.fileData d.filePos byteArr
    filePos := if d.closed then d.filePos else d.filePos + byteArr.length
    keyDir := kdUpdate d.keyDir key (NewKeyEntry ts d.offset (totalSize % 2 ^ 32))
    offset := (d.offset + totalSize % 2 ^ 32 + 1) % 2 ^ 32
    closed := d.closed }

/-- Outcome of `DiskStore.Get`: the returned string, or a panic (the code
calls `panic(...)` when `Seek` or `Read` returns an error). -/
inductive GetResult where
  | ok (value : List Nat)
  | panicSeek
  | panicRead
deriving DecidableEq, Repr

/-- `DiskStore.Get` (disk_store.go): on a key-directory miss it returns the
empty string; otherwise it seeks to the entry's position (panicking if the
handle is closed/invalid), reads up to `totalSize` bytes into a zero-filled
buffer of size `totalSize` (panicking on `io.EOF`, i.e. when no byte is
available and `totalSize > 0`), decodes the buffer and returns the decoded
value.  The second component is the store state afterwards (the seek/read
moved the file cursor). -/
def DiskStore.Get (d : DiskStore) (key : List Nat) : GetResult × DiskStore :=
  match kdLookup d.keyDir key with
  | none => (.ok [], d)
  | some keyInfo =>
      if d.closed then (.panicSeek, d)
      else if 0 < keyInfo.totalSize ∧ d.fileData.length ≤ keyInfo.position then
        (.panicRead, { d with filePos := keyInfo.position })
      else
        let readBytes := (d.fileData.drop keyInfo.position).take keyInfo.totalSize
        let byteArray := readBytes ++ List.replicate (keyInfo.totalSize - readBytes.length) 0
        (.ok (decodeKV byteArray).2.2,
          { d with filePos := keyInfo.position + readBytes.length })

/-- `DiskStore.Close` (disk_store.go): closes the file and reports `true` iff
`file.Close()` returned no error (closing an already closed or invalid handle
errors). -/
def DiskStore.Close (d : DiskStore) : DiskStore × Bool :=
  ({ d with closed := true }, !d.closed)

/-- `MemoryStore` (memory_store.go): a bare `map[string]KeyEntry`. -/
structure MemoryStore where
  data : List (List Nat × KeyEntry)
deriving DecidableEq, Repr

/-- `NewMemoryStore` (memory_store.go). -/
def NewMemoryStore : MemoryStore := ⟨[]⟩

/-- `MemoryStore.Get` (memory_store.go): `return m.data[key]` — a Go map read
yields the zero value `KeyEntry{}` when the key is absent. -/
def MemoryStore.Get (m : MemoryStore) (key : List Nat) : KeyEntry :=
  (kdLookup m.data key).getD (NewKeyEntry 0 0 0)

/-- `MemoryStore.Set` (memory_store.go). -/
def MemoryStore.Set (m : MemoryStore) (key : List Nat) (value : KeyEntry) :
    MemoryStore :=
  ⟨kdUpdate m.data key value⟩

/-- `MemoryStore.Close` (memory_store.go): always `true`. -/
def MemoryStore.Close (_ : MemoryStore) : Bool := true

/-- One `Set` call: the wall-clock time at the call and its arguments. -/
structure SetOp where
  now : Nat
  key : List Nat
  value : List Nat

/-- Run a sequence of `Set` calls on a store. -/
def runSets (d : DiskStore) (ops : List SetOp) : DiskStore :=
  ops.foldl (fun s op => s.Set op.now op.key op.value) d

/-- The key-directory bound invariant claimed by the spec: every entry ends
within the current log length. -/
def keyDirBounded (d : DiskStore) : Prop :=
  ∀ p ∈ d.keyDir, p.2.position + p.2.totalSize ≤ d.fileData.length

instance (d : DiskStore) : Decidable (keyDirBounded d) := by
  unfold keyDirBounded
  infer_instance

theorem decodeU32_u32le_append (n : Nat) (rest : List Nat) :
    decodeU32 (u32le n ++ rest) = n % 2 ^ 32 := by
  simp only [u32le, decodeU32, List.cons_append, List.nil_append,
    List.getD_cons_zero, List.getD_cons_succ]
  omega

theorem u32le_append_drop4 (n : Nat) (rest : List Nat) :
    (u32le n ++ rest).drop 4 = rest := by
  simp [u32le]

/-- C1: round-trip of the record codec, for timestamps in the 32-bit range and
keys/values whose lengths fit in the 32-bit header fields (the key and value
bytes themselves are arbitrary, including empty strings and bytes that look
like header fields): `decodeKV (encodeKV t k v) = (t, k, v)`. -/
theorem decode_encodeKV_roundtrip (t : Nat) (k v : List Nat)
    (ht : t < 2 ^ 32) (hk : k.length < 2 ^ 32) (hv : v.length < 2 ^ 32) :
    decodeKV (encodeKV t k v).2 = (t, k, v) := by
  have hd4 : (encodeKV t k v).2.drop 4 =
      u32le k.length ++ (u32le v.length ++ (k ++ v)) := by
    simp [encodeKV, u32le]
  have hd8 : (encodeKV t k v).2.drop 8 = u32le v.length ++ (k ++ v) := by
    simp [encodeKV, u32le]
  have hd12 : (encodeKV t k v).2.drop headerSize = k ++ v := by
    simp [encodeKV, u32le, headerSize]
  have h0 : decodeU32 (encodeKV t k v).2 = t % 2 ^ 32 := by
    have : (encodeKV t k v).2 =
        u32le t ++ (u32le k.length ++ (u32le v.length ++ (k ++ v))) := by
      simp [encodeKV]
    rw [this, decodeU32_u32le_append]
  have h1 : decodeU32 ((encodeKV t k v).2.drop 4) = k.length % 2 ^ 32 := by
    rw [hd4, decodeU32_u32le_append]
  have h2 : decodeU32 ((encodeKV t k v).2.drop 8) = v.length % 2 ^ 32 := by
    rw [hd8, decodeU32_u32le_append]
  simp only [decodeKV]
  rw [h0, h1, h2, hd12, Nat.mod_eq_of_lt ht, Nat.mod_eq_of_lt hk,
    Nat.mod_eq_of_lt hv, List.take_left, List.drop_left, List.take_length]

/-- Witness for C1 at a concrete input: the value contains bytes that look
like header fields. -/
theorem decode_encodeKV_roundtrip_witness :
    7 < 2 ^ 32 ∧ ([1, 2] : List Nat).length < 2 ^ 32 ∧
      ([0, 0, 0, 9] : List Nat).length < 2 ^ 32 ∧
      decodeKV (encodeKV 7 [1, 2] [0, 0, 0, 9]).2 = (7, [1, 2], [0, 0, 0, 9]) :=
  ⟨by decide, by decide, by decide,
    decode_encodeKV_roundtrip 7 [1, 2] [0, 0, 0, 9]
      (by decide) (by decide) (by decide)⟩

theorem decode_encodeKV_wrap_of_length (K : List Nat) (hK : K.length = 2 ^ 32) :
    decodeKV (encodeKV 0 K []).2 ≠ (0, K, ([] : List Nat)) := by
  intro h
  have hk : (decodeKV (encodeKV 0 K []).2).2.1 = K := by rw [h]
  have hdrop : (encodeKV 0 K ([] : List Nat)).2.drop 4 =
      u32le (2 ^ 32) ++ (u32le 0 ++ (K ++ [])) := by
    simp [encodeKV, u32le, hK]
  have hklen : decodeU32 ((encodeKV 0 K ([] : List Nat)).2.drop 4) = 0 := by
    rw [hdrop, decodeU32_u32le_append]
    simp
  have hnil : (decodeKV (encodeKV 0 K []).2).2.1 = [] := by
    simp only [decodeKV]
    rw [hklen]
    simp
  rw [hnil] at hk
  have hc := congrArg List.length hk
  rw [hK] at hc
  simp at hc

/-- C1 counterexample: a key of length `2 ^ 32` does not round-trip, because
the 32-bit key-length header field wraps to 0 and decoding returns an empty
key. -/
theorem decode_encodeKV_wraps_at_2pow32 :
    decodeKV (encodeKV 0 (List.replicate (2 ^ 32) 0) []).2 ≠
      (0, List.replicate (2 ^ 32) 0, ([] : List Nat)) :=
  decode_encodeKV_wrap_of_length (List.replicate (2 ^ 32) 0)
    (List.length_replicate _ _)

theorem kdLookup_kdUpdate_self (l : List (List Nat × KeyEntry)) (k : List Nat)
    (e : KeyEntry) : kdLookup (kdUpdate l k e) k = some e := by
  induction l with
  | nil => simp [kdUpdate, kdLookup]
  | cons p rest ih =>
    obtain ⟨k2, e2⟩ := p
    by_cases h : k2 = k
    · simp [kdUpdate, kdLookup, h]
    · simp [kdUpdate, kdLookup, h, ih]

theorem kdLookup_kdUpdate_ne (l : List (List Nat × KeyEntry)) (k k2 : List Nat)
    (e : KeyEntry) (h : k ≠ k2) :
    kdLookup (kdUpdate l k e) k2 = kdLookup l k2 := by
  induction l with
  | nil => simp [kdUpdate, kdLookup, h]
  | cons p rest ih =>
    obtain ⟨k3, e3⟩ := p
    by_cases h3 : k3 = k
    · simp [kdUpdate, kdLookup, h3, h]
    · simp only [kdUpdate, if_neg h3, kdLookup]
      by_cases h4 : k3 = k2
      · simp [h4]
      · simp [h4, ih]

theorem DiskStore.Set_keyDir (d : DiskStore) (now : Nat) (k v : List Nat) :
    (d.Set now k v).keyDir =
      kdUpdate d.keyDir k (NewKeyEntry (now % 2 ^ 32) d.offset
        ((encodeKV (now % 2 ^ 32) k v).1 % 2 ^ 32)) := rfl

theorem DiskStore.Set_offset (d : DiskStore) (now : Nat) (k v : List Nat) :
    (d.Set now k v).offset =
      (d.offset + (encodeKV (now % 2 ^ 32) k v).1 % 2 ^ 32 + 1) % 2 ^ 32 := rfl

theorem runSets_cons (d : DiskStore) (op : SetOp) (ops : List SetOp) :
    runSets d (op :: ops) = runSets (d.Set op.now op.key op.value) ops := rfl

theorem runSets_append (d : DiskStore) (l1 l2 : List SetOp) :
    runSets d (l1 ++ l2) = runSets (runSets d l1) l2 := by
  simp [runSets, List.foldl_append]

theorem kdLookup_runSets_of_not_mem (ops : List SetOp) (d : DiskStore)
    (k : List Nat) (h : k ∉ ops.map SetOp.key) :
    kdLookup (runSets d ops).keyDir k = kdLookup d.keyDir k := by
  induction ops generalizing d with
  | nil => rfl
  | cons op rest ih =>
    simp only [List.map_cons, List.mem_cons, not_or] at h
    rw [runSets_cons, ih _ h.2, DiskStore.Set_keyDir,
      kdLookup_kdUpdate_ne _ _ _ _ (Ne.symm h.1)]

/-- C2: the last-write-wins property fails on the code.  On a fresh store,
after `Set("a","1"); Set("a","2")` the key-directory entry for `"a"` is
`{timestamp 0, position 15, totalSize 14}` although the second record actually
occupies bytes 14..27 of the 28-byte log (the cursor's unwritten extra byte
shifts every position after the first record), so `Get("a")` reads a
misaligned buffer and returns `""`, not `"2"`. -/
theorem lastWriteWins_fails_on_code :
    ((((NewDiskStore [] false).1.Set 0 [97] [49]).Set 0 [97] [50]).Get [97]).1 =
        GetResult.ok [] ∧
      kdLookup (((NewDiskStore [] false).1.Set 0 [97] [49]).Set 0 [97] [50]).keyDir
          [97] = some (NewKeyEntry 0 15 14) ∧
      (((NewDiskStore [] false).1.Set 0 [97] [49]).Set 0 [97] [50]).fileData.length =
        28 ∧
      GetResult.ok ([] : List Nat) ≠ GetResult.ok [50] := by
  decide

/-- C3: absence is conflated with the empty value.  On a fresh store after
`Set("e","")`, both `Get("missing")` and `Get("e")` return the same outcome
`""`: the code has no distinct "not found" result. -/
theorem get_absent_conflated_with_empty :
    ((((NewDiskStore [] false).1.Set 0 [101] []).Get [109, 105, 115, 115]).1 =
        GetResult.ok []) ∧
      ((((NewDiskStore [] false).1.Set 0 [101] []).Get [101]).1 =
        GetResult.ok []) ∧
      ((((NewDiskStore [] false).1.Set 0 [101] []).Get [109, 105, 115, 115]).1 =
        (((NewDiskStore [] false).1.Set 0 [101] []).Get [101]).1) := by
  decide

/-- C4: closed-store safety fails on the code.  After `Set("a","1"); Close()`,
`Get("a")` panics (the `Seek` on the closed file returns an error and the code
panics), and `Set("b","2")` silently mutates the in-memory key directory while
its failed write is discarded; no `ClosedStoreError` is ever returned. -/
theorem closed_store_operations_unsafe :
    ((((NewDiskStore [] false).1.Set 0 [97] [49]).Close).1.Get [97]).1 =
        GetResult.panicSeek ∧
      ((((NewDiskStore [] false).1.Set 0 [97] [49]).Close).1.Set 0 [98] [50]).keyDir ≠
        (((NewDiskStore [] false).1.Set 0 [97] [49]).Close).1.keyDir := by
  decide

/-- C5: the key-directory bound invariant fails on the code.  On a fresh store
after `Set("a","1"); Set("b","2")`, the entry for `"b"` is `{position 15,
totalSize 14}` but the log holds only 28 bytes (`15 + 14 = 29 > 28`), because
`Set` advances the cursor by `totalSize + 1` while writing only `totalSize`
bytes. -/
theorem keyDir_bound_invariant_fails :
    ¬ keyDirBounded (((NewDiskStore [] false).1.Set 0 [97] [49]).Set 0 [98] [50]) := by
  decide

/-- C6: monotonic placement.  In any run of sequential `Set` calls on a freshly
opened store, for a consecutive pair of `Set` calls with distinct keys (whose
keys are not overwritten later in the run), the later key's stored position is
strictly greater than `position + totalSize` of the earlier key's entry,
provided the uint32 write cursor does not wrap at this step. -/
theorem monotonic_placement (prior : List Nat) (pre post : List SetOp)
    (o1 o2 : SetOp) (hne : o1.key ≠ o2.key)
    (h1 : o1.key ∉ post.map SetOp.key) (h2 : o2.key ∉ post.map SetOp.key)
    (hov : (runSets (NewDiskStore prior false).1 pre).offset +
        (encodeKV (o1.now % 2 ^ 32) o1.key o1.value).1 % 2 ^ 32 + 1 < 2 ^ 32) :
    ∃ e1 e2,
      kdLookup (runSets (NewDiskStore prior false).1
          (pre ++ o1 :: o2 :: post)).keyDir o1.key = some e1 ∧
      kdLookup (runSets (NewDiskStore prior false).1
          (pre ++ o1 :: o2 :: post)).keyDir o2.key = some e2 ∧
      e1.position + e1.totalSize < e2.position := by
  have hsplit : runSets (NewDiskStore prior false).1 (pre ++ o1 :: o2 :: post) =
      runSets (((runSets (NewDiskStore prior false).1 pre).Set o1.now o1.key
        o1.value).Set o2.now o2.key o2.value) post := by
    rw [runSets_append]; rfl
  refine ⟨NewKeyEntry (o1.now % 2 ^ 32)
      (runSets (NewDiskStore prior false).1 pre).offset
      ((encodeKV (o1.now % 2 ^ 32) o1.key o1.value).1 % 2 ^ 32),
    NewKeyEntry (o2.now % 2 ^ 32)
      (((runSets (NewDiskStore prior false).1 pre).Set o1.now o1.key o1.value).offset)
      ((encodeKV (o2.now % 2 ^ 32) o2.key o2.value).1 % 2 ^ 32), ?_, ?_, ?_⟩
  · rw [hsplit, kdLookup_runSets_of_not_mem _ _ _ h1, DiskStore.Set_keyDir,
      kdLookup_kdUpdate_ne _ _ _ _ (Ne.symm hne), DiskStore.Set_keyDir,
      kdLookup_kdUpdate_self]
  · rw [hsplit, kdLookup_runSets_of_not_mem _ _ _ h2, DiskStore.Set_keyDir,
      kdLookup_kdUpdate_self]
  · simp only [NewKeyEntry, DiskStore.Set_offset]
    rw [Nat.mod_eq_of_lt hov]
    omega

/-- Witness for C6: two consecutive `Set` calls with keys "a" and "b" on a
freshly opened store. -/
theorem monotonic_placement_witness :
    (SetOp.mk 0 [97] [49]).key ≠ (SetOp.mk 0 [98] [50]).key ∧
      (SetOp.mk 0 [97] [49]).key ∉ ([] : List SetOp).map SetOp.key ∧
      (SetOp.mk 0 [98] [50]).key ∉ ([] : List SetOp).map SetOp.key ∧
      (runSets (NewDiskStore [] false).1 []).offset +
        (encodeKV ((SetOp.mk 0 [97] [49]).now % 2 ^ 32) (SetOp.mk 0 [97] [49]).key
          (SetOp.mk 0 [97] [49]).value).1 % 2 ^ 32 + 1 < 2 ^ 32 ∧
      (∃ e1 e2,
        kdLookup (runSets (NewDiskStore [] false).1
            ([] ++ SetOp.mk 0 [97] [49] :: SetOp.mk 0 [98] [50] :: [])).keyDir
          (SetOp.mk 0 [97] [49]).key = some e1 ∧
        kdLookup (runSets (NewDiskStore [] false).1
            ([] ++ SetOp.mk 0 [97] [49] :: SetOp.mk 0 [98] [50] :: [])).keyDir
          (SetOp.mk 0 [98] [50]).key = some e2 ∧
        e1.position + e1.totalSize < e2.position) :=
  ⟨by decide, by decide, by decide, by decide,
    monotonic_placement [] [] [] (SetOp.mk 0 [97] [49]) (SetOp.mk 0 [98] [50])
      (by decide) (by decide) (by decide) (by decide)⟩

/-- C7: append-cursor arithmetic of `Set` on an open store whose file cursor
is at end of file (the pure-append regime, as after any sequence of `Set`
calls): the new entry's position is the current write cursor `d.offset`, the
cursor then advances by `uint32(totalSize) + 1`, yet exactly
`len(encoded bytes) = totalSize` bytes are appended to the file — the one
reserved byte per record is never written. -/
theorem set_cursor_arithmetic (d : DiskStore) (now : Nat) (k v : List Nat)
    (hopen : d.closed = false) (hpos : d.filePos = d.fileData.length) :
    kdLookup (d.Set now k v).keyDir k =
        some (NewKeyEntry (now % 2 ^ 32) d.offset
          ((encodeKV (now % 2 ^ 32) k v).1 % 2 ^ 32)) ∧
      (d.Set now k v).offset =
        (d.offset + (encodeKV (now % 2 ^ 32) k v).1 % 2 ^ 32 + 1) % 2 ^ 32 ∧
      (d.Set now k v).fileData = d.fileData ++ (encodeKV (now % 2 ^ 32) k v).2 ∧
      (encodeKV (now % 2 ^ 32) k v).2.length = (encodeKV (now % 2 ^ 32) k v).1 := by
  refine ⟨?_, rfl, ?_, ?_⟩
  · rw [DiskStore.Set_keyDir, kdLookup_kdUpdate_self]
  · simp [DiskStore.Set, hopen, writeAt, hpos, List.drop_eq_nil_of_le]
  · simp [encodeKV, u32le, headerSize]
    omega

/-- Witness for C7: a single `Set` on a freshly opened store. -/
theorem set_cursor_arithmetic_witness :
    (NewDiskStore [] false).1.closed = false ∧
      (NewDiskStore [] false).1.filePos = (NewDiskStore [] false).1.fileData.length ∧
      (kdLookup ((NewDiskStore [] false).1.Set 3 [97] [49]).keyDir [97] =
          some (NewKeyEntry (3 % 2 ^ 32) (NewDiskStore [] false).1.offset
            ((encodeKV (3 % 2 ^ 32) [97] [49]).1 % 2 ^ 32)) ∧
        ((NewDiskStore [] false).1.Set 3 [97] [49]).offset =
          ((NewDiskStore [] false).1.offset +
            (encodeKV (3 % 2 ^ 32) [97] [49]).1 % 2 ^ 32 + 1) % 2 ^ 32 ∧
        ((NewDiskStore [] false).1.Set 3 [97] [49]).fileData =
          (NewDiskStore [] false).1.fileData ++ (encodeKV (3 % 2 ^ 32) [97] [49]).2 ∧
        (encodeKV (3 % 2 ^ 32) [97] [49]).2.length =
          (encodeKV (3 % 2 ^ 32) [97] [49]).1) :=
  ⟨rfl, rfl, set_cursor_arithmetic (NewDiskStore [] false).1 3 [97] [49] rfl rfl⟩

/-- C8: `Set` is not atomic on write failure.  On a store whose file handle is
unusable (the write fails and its error is discarded), `Set` still replaces
the key-directory entry and advances the write cursor exactly as on success,
while the file is untouched. -/
theorem set_mutates_memory_on_failed_write (d : DiskStore) (now : Nat)
    (k v : List Nat) (hclosed : d.closed = true) :
    (d.Set now k v).keyDir =
        kdUpdate d.keyDir k (NewKeyEntry (now % 2 ^ 32) d.offset
          ((encodeKV (now % 2 ^ 32) k v).1 % 2 ^ 32)) ∧
      (d.Set now k v).offset =
        (d.offset + (encodeKV (now % 2 ^ 32) k v).1 % 2 ^ 32 + 1) % 2 ^ 32 ∧
      (d.Set now k v).fileData = d.fileData ∧
      (d.Set now k v).filePos = d.filePos := by
  refine ⟨rfl, rfl, ?_, ?_⟩ <;> simp [DiskStore.Set, hclosed]

/-- Witness for C8: a `Set` on a store whose creation failed (nil handle). -/
theorem set_mutates_memory_on_failed_write_witness :
    (NewDiskStore [] true).1.closed = true ∧
      (((NewDiskStore [] true).1.Set 0 [97] [49]).keyDir =
          kdUpdate (NewDiskStore [] true).1.keyDir [97]
            (NewKeyEntry (0 % 2 ^ 32) (NewDiskStore [] true).1.offset
              ((encodeKV (0 % 2 ^ 32) [97] [49]).1 % 2 ^ 32)) ∧
        ((NewDiskStore [] true).1.Set 0 [97] [49]).offset =
          ((NewDiskStore [] true).1.offset +
            (encodeKV (0 % 2 ^ 32) [97] [49]).1 % 2 ^ 32 + 1) % 2 ^ 32 ∧
        ((NewDiskStore [] true).1.Set 0 [97] [49]).fileData =
          (NewDiskStore [] true).1.fileData ∧
        ((NewDiskStore [] true).1.Set 0 [97] [49]).filePos =
          (NewDiskStore [] true).1.filePos) :=
  ⟨rfl, set_mutates_memory_on_failed_write (NewDiskStore [] true).1 0 [97] [49] rfl⟩

/-- C9: `NewDiskStore` always returns a store value with an empty key
directory, write cursor 0 and an empty (truncated) file regardless of any
prior file contents, and passes the creation error through unchanged; when
creation fails the returned store's handle is unusable. -/
theorem newDiskStore_initial_state (prior : List Nat) (createFails : Bool) :
    (NewDiskStore prior createFails).1.keyDir = [] ∧
      (NewDiskStore prior createFails).1.offset = 0 ∧
      (NewDiskStore prior createFails).1.fileData = [] ∧
      (NewDiskStore prior createFails).1.filePos = 0 ∧
      (NewDiskStore prior createFails).2 = createFails ∧
      (NewDiskStore prior createFails).1.closed = createFails :=
  ⟨rfl, rfl, rfl, rfl, rfl, rfl⟩

/-- C10: `MemoryStore.Get` on a never-set key returns the zero-value
`KeyEntry{0,0,0}`, which is exactly what it returns for a key explicitly set
to the zero-value entry (no "not found" signal exists), and
`MemoryStore.Close` always returns `true`. -/
theorem memoryStore_absent_is_zero_value :
    (∀ k : List Nat, NewMemoryStore.Get k = NewKeyEntry 0 0 0) ∧
      (∀ (m : MemoryStore) (k : List Nat),
        (m.Set k (NewKeyEntry 0 0 0)).Get k = NewKeyEntry 0 0 0) ∧
      (∀ m : MemoryStore, m.Close = true) := by
  refine ⟨fun k => rfl, fun m k => ?_, fun m => rfl⟩
  simp [MemoryStore.Get, MemoryStore.Set, kdLookup_kdUpdate_self]
